import Mathlib

/-!
Verification of the annotation aggregation and agreement statistics engine of
`scripts/generate_report.py`: the Krippendorff alpha wrappers, the win-rate
matrices, the overall win percentages and the bootstrap confidence intervals
are embedded as executable Lean definitions, and the stated properties of the
code are settled as theorems. Real arithmetic of the Python code is carried
out over `ℚ`; missing values (pandas `NaN` cells) become `Option`.
-/

namespace WikitonguesEval

/-- Canonical pairwise annotation record (one row of `pairwise_df`):
`prompt_id`, `model_a`, `model_b`, `annotator_id` and the raw `winner`
label (any string; only `"a"`, `"b"`, `"tie"` are meaningful downstream). -/
structure PairwiseRow where
  prompt_id : String
  model_a : String
  model_b : String
  annotator_id : String
  winner : String
deriving DecidableEq

/-- Canonical rubric annotation record (one row of `rubric_df` after the
flattening loop of `generate_report`): identity fields plus the per-dimension
scores, an association list with `lookup` returning `none` for an absent
(NaN) dimension value. -/
structure RubricRow where
  prompt_id : String
  model : String
  annotator_id : String
  scores : List (String × ℤ)
deriving DecidableEq

/-- The fixed rubric dimension names (`RUBRIC_DIMENSIONS`). -/
def RUBRIC_DIMENSIONS : List String :=
  ["cultural_accuracy", "linguistic_authenticity", "creative_depth",
   "factual_correctness"]

/-- Modelled from the spec: the reliability matrix handed to the external
`krippendorff.alpha` library (the library is not part of the repository
sources). Rows are annotators, columns are units, `none` is a missing cell --
the `np.nan` cells of the pivot table. Cell values are the integer codes the
code produces (scores 1-5, winner codes 1-3). -/
abbrev RelMatrix := List (List (Option ℤ))

/-- Values of column `u` of the matrix contributed by any annotator
(the unit's list of non-missing ratings). -/
def cellVals (M : RelMatrix) (u : ℕ) : List ℤ :=
  M.filterMap (fun row => row.getD u none)

/-- Number of columns of the matrix (rows are padded with missing cells,
so the longest row determines the unit count). -/
def matCols (M : RelMatrix) : ℕ :=
  (M.map List.length).foldr max 0

/-- All non-missing values of the matrix, pooled while ignoring the unit
structure (the marginal distribution of step 3 of the spec algorithm). -/
def allVals (M : RelMatrix) : List ℤ :=
  M.flatMap (fun row => row.filterMap id)

/-- Sum of a difference metric over all ordered pairs of values taken at
distinct positions of `vs` (the `m*(m-1)` ordered pairs of a unit): the full
grid sum minus the diagonal-by-position terms. -/
def sumPairs (d : ℤ → ℤ → ℚ) (vs : List ℤ) : ℚ :=
  (vs.map (fun x => (vs.map (fun y => d x y)).sum)).sum
    - (vs.map (fun x => d x x)).sum

/-- Modelled from the spec: nominal difference metric, 0 on equal values,
1 otherwise. -/
def deltaNominal (v w : ℤ) : ℚ :=
  if v = w then 0 else 1

/-- Cumulative marginal count of the pooled values up to and including
category `c` (the `F(c)` of the spec's ordinal metric). -/
def cumCount (pool : List ℤ) (c : ℤ) : ℚ :=
  (pool.countP (fun v => decide (v ≤ c)) : ℚ)

/-- Modelled from the spec: ordinal difference metric, the squared half-gap
between the two categories' marginal cumulative positions. -/
def deltaOrdinal (pool : List ℤ) (v w : ℤ) : ℚ :=
  (((cumCount pool (max v w - 1) + cumCount pool (max v w))
      - (cumCount pool (min v w - 1) + cumCount pool (min v w))) / 2) ^ 2

/-- Columns rated by at least two annotators. -/
def pairableUnits (M : RelMatrix) : List ℕ :=
  (List.range (matCols M)).filter (fun u => decide (2 ≤ (cellVals M u).length))

/-- Total number of pairable values (values inside columns with at least two
ratings). -/
def nPairable (M : RelMatrix) : ℕ :=
  ((pairableUnits M).map (fun u => (cellVals M u).length)).sum

/-- Modelled from the spec: observed disagreement, the per-unit pair sums
weighted by `1/(m-1)` and normalized by the number of pairable values. -/
def observedDis (d : ℤ → ℤ → ℚ) (M : RelMatrix) : ℚ :=
  (((pairableUnits M).map
      (fun u => sumPairs d (cellVals M u) / (((cellVals M u).length : ℚ) - 1))).sum)
    / (nPairable M : ℚ)

/-- Modelled from the spec: expected disagreement, the metric averaged over
all ordered pairs drawn from the pooled marginal distribution. -/
def expectedDis (d : ℤ → ℤ → ℚ) (M : RelMatrix) : ℚ :=
  sumPairs d (allVals M)
    / (((allVals M).length : ℚ) * (((allVals M).length : ℚ) - 1))

/-- Does some unit carry ratings from at least two annotators (the
overlapping-coverage precondition of the spec)? -/
def hasOverlap (M : RelMatrix) : Bool :=
  (List.range (matCols M)).any (fun u => decide (2 ≤ (cellVals M u).length))

/-- Modelled from the spec: `krippendorff.alpha` on a reliability matrix.
Preconditions (at least two annotators, overlapping coverage) give
`none` (insufficient data); `alpha = 1` by convention when both observed and
expected disagreement vanish; `none` when only the expected disagreement
vanishes; otherwise `1 - Do/De`. The metric receives the pooled values first
(the ordinal metric depends on the marginal distribution). -/
def krippAlpha (dm : List ℤ → ℤ → ℤ → ℚ) (M : RelMatrix) : Option ℚ :=
  if M.length < 2 then none
  else if hasOverlap M = false then none
  else
    if observedDis (dm (allVals M)) M = 0 ∧ expectedDis (dm (allVals M)) M = 0
    then some 1
    else if expectedDis (dm (allVals M)) M = 0 then none
    else some (1 - observedDis (dm (allVals M)) M / expectedDis (dm (allVals M)) M)

/-- Alpha with `level_of_measurement="ordinal"` (rubric dimensions). -/
def alphaOrdinal (M : RelMatrix) : Option ℚ :=
  krippAlpha (fun pool => deltaOrdinal pool) M

/-- Alpha with `level_of_measurement="nominal"` (pairwise winners). -/
def alphaNominal (M : RelMatrix) : Option ℚ :=
  krippAlpha (fun _ => deltaNominal) M

lemma sumPairs_const (d : ℤ → ℤ → ℚ) (v : ℤ) (vs : List ℤ)
    (hall : ∀ x ∈ vs, x = v) (hd : d v v = 0) : sumPairs d vs = 0 := by
  have h1 : (vs.map (fun x => (vs.map (fun y => d x y)).sum)).sum = 0 := by
    apply List.sum_eq_zero
    intro s hs
    obtain ⟨x, hx, rfl⟩ := List.mem_map.1 hs
    apply List.sum_eq_zero
    intro t ht
    obtain ⟨y, hy, rfl⟩ := List.mem_map.1 ht
    rw [hall x hx, hall y hy, hd]
  have h2 : (vs.map (fun x => d x x)).sum = 0 := by
    apply List.sum_eq_zero
    intro t ht
    obtain ⟨x, hx, rfl⟩ := List.mem_map.1 ht
    rw [hall x hx, hd]
  rw [sumPairs, h1, h2, sub_zero]

lemma cellVals_const (M : RelMatrix) (v : ℤ)
    (hall : ∀ row ∈ M, ∀ c ∈ row, c = none ∨ c = some v) (u : ℕ) :
    ∀ x ∈ cellVals M u, x = v := by
  intro x hx
  obtain ⟨row, hrow, hget⟩ := List.mem_filterMap.1 hx
  have hmem : (some x : Option ℤ) ∈ row := by
    rcases h : row.get? u with _ | c
    · rw [List.getD, h] at hget
      simp at hget
    · rw [List.getD, h] at hget
      simp at hget
      exact hget ▸ List.get?_mem h
  rcases hall row hrow (some x) hmem with h | h
  · simp at h
  · simpa using h

lemma allVals_const (M : RelMatrix) (v : ℤ)
    (hall : ∀ row ∈ M, ∀ c ∈ row, c = none ∨ c = some v) :
    ∀ x ∈ allVals M, x = v := by
  intro x hx
  obtain ⟨row, hrow, hmem⟩ := List.mem_flatMap.1 hx
  obtain ⟨c, hc, hcx⟩ := List.mem_filterMap.1 hmem
  rcases hall row hrow c hc with h | h
  · rw [h] at hcx
    simp at hcx
  · rw [h] at hcx
    simp at hcx
    exact hcx.symm

lemma deltaOrdinal_self (pool : List ℤ) (v : ℤ) : deltaOrdinal pool v v = 0 := by
  simp [deltaOrdinal]

lemma deltaNominal_self (v : ℤ) : deltaNominal v v = 0 := by
  simp [deltaNominal]

lemma observedDis_const (d : ℤ → ℤ → ℚ) (M : RelMatrix) (v : ℤ)
    (hv : ∀ u, ∀ x ∈ cellVals M u, x = v) (hd : d v v = 0) :
    observedDis d M = 0 := by
  have h0 : ((pairableUnits M).map
      (fun u => sumPairs d (cellVals M u) / (((cellVals M u).length : ℚ) - 1))).sum = 0 := by
    apply List.sum_eq_zero
    intro t ht
    obtain ⟨u, hu, rfl⟩ := List.mem_map.1 ht
    rw [sumPairs_const d v _ (hv u) hd, zero_div]
  rw [observedDis, h0, zero_div]

lemma expectedDis_const (d : ℤ → ℤ → ℚ) (M : RelMatrix) (v : ℤ)
    (hv : ∀ x ∈ allVals M, x = v) (hd : d v v = 0) :
    expectedDis d M = 0 := by
  rw [expectedDis, sumPairs_const d v _ hv hd, zero_div]

/-- C1 (amended): a reliability matrix with at least two annotators,
overlapping coverage (some unit rated at least twice), and one single value
in every non-missing cell has alpha exactly 1, under the ordinal and under
the nominal metric alike. -/
theorem c1_alpha_perfect (M : RelMatrix) (v : ℤ)
    (h2 : 2 ≤ M.length) (hov : hasOverlap M = true)
    (hall : ∀ row ∈ M, ∀ c ∈ row, c = none ∨ c = some v) :
    alphaOrdinal M = some 1 ∧ alphaNominal M = some 1 := by
  have hcell := cellVals_const M v hall
  have hpool := allVals_const M v hall
  constructor
  · rw [alphaOrdinal, krippAlpha, if_neg (by omega), if_neg (by simp [hov]),
      if_pos ⟨observedDis_const _ M v hcell (deltaOrdinal_self _ v),
        expectedDis_const _ M v hpool (deltaOrdinal_self _ v)⟩]
  · rw [alphaNominal, krippAlpha, if_neg (by omega), if_neg (by simp [hov]),
      if_pos ⟨observedDis_const _ M v hcell (deltaNominal_self v),
        expectedDis_const _ M v hpool (deltaNominal_self v)⟩]

/-- C1 witness: two annotators who both rate the same single unit with the
value 3 form an all-equal matrix with overlap; both alphas equal 1. -/
theorem c1_alpha_perfect_witness :
    alphaOrdinal [[some 3], [some 3]] = some 1
    ∧ alphaNominal [[some 3], [some 3]] = some 1 :=
  c1_alpha_perfect [[some 3], [some 3]] 3 (by decide) (by decide) (by decide)

/-- C1 counterexample: two annotators rating two disjoint units with the same
single value 3 satisfy every hypothesis of the claim (two annotators, every
non-missing cell equal), yet alpha is the undefined marker, not 1, under both
metrics: the spec's own overlapping-coverage precondition fires first. -/
theorem c1_counterexample :
    2 ≤ ([[some 3, none], [none, some 3]] : RelMatrix).length
    ∧ (∀ row ∈ ([[some 3, none], [none, some 3]] : RelMatrix),
        ∀ c ∈ row, c = none ∨ c = some 3)
    ∧ alphaOrdinal [[some 3, none], [none, some 3]] ≠ some 1
    ∧ alphaNominal [[some 3, none], [none, some 3]] ≠ some 1 := by
  decide

/-- A single rating after the dropna/encode step: contributing annotator, the
unit key string and the integer value. -/
structure RatingCell where
  annotator_id : String
  unit : String
  value : ℤ
deriving DecidableEq

/-- Number of distinct entries of a list of strings (pandas `nunique`). -/
def nunique (l : List String) : ℕ :=
  l.dedup.length

/-- First rating of annotator `a` on unit `u` in input order
(`pivot_table` with `aggfunc="first"` keeps the first value per group). -/
def firstRating (cells : List RatingCell) (a u : String) : Option ℤ :=
  (cells.find? (fun c => c.annotator_id == a && c.unit == u)).map (fun c => c.value)

/-- The annotator-by-unit pivot matrix: one row per distinct annotator, one
column per distinct unit, `none` where the annotator never rated the unit.
pandas sorts the index and columns; the row and column order only permutes
the matrix and carries no information, so first-seen order is used here. -/
def pivotMatrix (cells : List RatingCell) : RelMatrix :=
  ((cells.map (fun c => c.annotator_id)).dedup).map (fun a =>
    ((cells.map (fun c => c.unit)).dedup).map (fun u => firstRating cells a u))

/-- The rubric subset for a dimension: the records whose score for the
dimension is present (`dropna(subset=[dimension])`), turned into rating
cells with unit key `prompt_id + "|" + model`. -/
def rubricSubset (rows : List RubricRow) (dim : String) : List RatingCell :=
  rows.filterMap (fun r =>
    (r.scores.lookup dim).map (fun s =>
      RatingCell.mk r.annotator_id (r.prompt_id ++ "|" ++ r.model) s))

/-- `_krippendorff_alpha_rubric`: dropna on the dimension, empty and
fewer-than-two-annotators guards, pivot, pivot-row guard, ordinal alpha. -/
def krippRubric (rows : List RubricRow) (dim : String) : Option ℚ :=
  if rubricSubset rows dim = [] then none
  else if nunique ((rubricSubset rows dim).map (fun c => c.annotator_id)) < 2 then none
  else
    if (pivotMatrix (rubricSubset rows dim)).length < 2 then none
    else alphaOrdinal (pivotMatrix (rubricSubset rows dim))

/-- Winner encoding of `_krippendorff_alpha_pairwise`
(`{"a": 1, "b": 2, "tie": 3}`, anything else becomes a missing code). -/
def winnerCode (w : String) : Option ℤ :=
  if w = "a" then some 1 else if w = "b" then some 2
  else if w = "tie" then some 3 else none

/-- The encoded pairwise rating cells: records with a recognized winner
label, unit key `prompt_id + "|" + model_a + "|" + model_b`
(`dropna(subset=["winner_code"])`). -/
def pairwiseCells (rows : List PairwiseRow) : List RatingCell :=
  rows.filterMap (fun r =>
    (winnerCode r.winner).map (fun c =>
      RatingCell.mk r.annotator_id
        (r.prompt_id ++ "|" ++ r.model_a ++ "|" ++ r.model_b) c))

/-- `_krippendorff_alpha_pairwise`: empty and fewer-than-two-annotators
guards on the raw records, winner encoding and dropna, empty guard, pivot,
pivot-row guard, nominal alpha. -/
def krippPairwise (rows : List PairwiseRow) : Option ℚ :=
  if rows = [] then none
  else if nunique (rows.map (fun r => r.annotator_id)) < 2 then none
  else
    if pairwiseCells rows = [] then none
    else
      if (pivotMatrix (pairwiseCells rows)).length < 2 then none
      else alphaNominal (pivotMatrix (pairwiseCells rows))

lemma pivotMatrix_length (cells : List RatingCell) :
    (pivotMatrix cells).length
      = nunique (cells.map (fun c => c.annotator_id)) := by
  rw [pivotMatrix, List.length_map, nunique]

/-- C2: both alpha computations return the undefined marker whenever the
filtered record set is empty or carries fewer than two distinct annotator
ids: a number is never produced in those situations. -/
theorem c2_alpha_insufficient :
    (∀ (rows : List RubricRow) (dim : String),
      rubricSubset rows dim = []
        ∨ nunique ((rubricSubset rows dim).map (fun c => c.annotator_id)) < 2 →
      krippRubric rows dim = none)
    ∧ (∀ rows : List PairwiseRow,
      pairwiseCells rows = []
        ∨ nunique ((pairwiseCells rows).map (fun c => c.annotator_id)) < 2 →
      krippPairwise rows = none) := by
  constructor
  · intro rows dim h
    rcases h with h | h
    · rw [krippRubric, if_pos h]
    · rw [krippRubric]
      by_cases he : rubricSubset rows dim = []
      · rw [if_pos he]
      · rw [if_neg he, if_pos h]
  · intro rows h
    rw [krippPairwise]
    by_cases hr : rows = []
    · rw [if_pos hr]
    · rw [if_neg hr]
      by_cases hn : nunique (rows.map (fun r => r.annotator_id)) < 2
      · rw [if_pos hn]
      · rw [if_neg hn]
        rcases h with h | h
        · rw [if_pos h]
        · by_cases he : pairwiseCells rows = []
          · rw [if_pos he]
          · rw [if_neg he, if_pos (by rw [pivotMatrix_length]; exact h)]

/-- C2 witness: a single-annotator record set (one rubric record, and two
pairwise records from one annotator) yields the undefined marker on a rubric
dimension and on the pairwise statistic. -/
theorem c2_alpha_insufficient_witness :
    krippRubric [RubricRow.mk "p1" "x" "ann1" [("cultural_accuracy", 4)]]
        "cultural_accuracy" = none
    ∧ krippPairwise [PairwiseRow.mk "p1" "x" "y" "ann1" "a",
        PairwiseRow.mk "p2" "x" "y" "ann1" "b"] = none :=
  ⟨c2_alpha_insufficient.1 _ "cultural_accuracy" (Or.inr (by decide)),
   c2_alpha_insufficient.2 _ (Or.inr (by decide))⟩

/-- A model-by-model grid of optional numbers (a float DataFrame whose
missing cells are `NaN`), represented as a function. -/
abbrev Mat := String → String → Option ℚ

/-- Write one cell of the grid. -/
def matSet (m : Mat) (i j : String) (v : Option ℚ) : Mat :=
  fun x y => if x = i ∧ y = j then v else m x y

/-- Record one decisive outcome in the directed win-count grid, exactly as
the loop body of `_compute_win_rates` does: the `(winning, losing)` cell goes
from `NaN` to 1 or is incremented (`getD 0 + 1` covers both branches), and
the reverse cell is seeded with 0 if still missing. -/
def bumpWin (m : Mat) (w l : String) : Mat :=
  let m1 := matSet m w l (some ((m w l).getD 0 + 1))
  if (m1 l w).isNone then matSet m1 l w (some 0) else m1

/-- One record of the `_compute_win_rates` loop: skip when either model is
outside the roster, credit `model_a` over `model_b` on winner `"a"`,
`model_b` over `model_a` on winner `"b"`, skip anything else. -/
def winStep (models : List String) (m : Mat) (r : PairwiseRow) : Mat :=
  if r.model_a ∉ models ∨ r.model_b ∉ models then m
  else if r.winner = "a" then bumpWin m r.model_a r.model_b
  else if r.winner = "b" then bumpWin m r.model_b r.model_a
  else m

/-- The directed win-count matrix of `_compute_win_rates` after its loop. -/
def winMatrix (rows : List PairwiseRow) (models : List String) : Mat :=
  rows.foldl (winStep models) (fun _ _ => none)

/-- The rate matrix of `_compute_win_rates`: for distinct roster models,
`w / (w + l)` with missing counts read as 0, left missing when `w + l = 0`;
diagonal and off-roster cells stay missing. -/
def rateMatrix (rows : List PairwiseRow) (models : List String) : Mat :=
  fun m1 m2 =>
    if m1 ∈ models ∧ m2 ∈ models ∧ m1 ≠ m2 then
      if 0 < (winMatrix rows models m1 m2).getD 0
          + (winMatrix rows models m2 m1).getD 0 then
        some ((winMatrix rows models m1 m2).getD 0
          / ((winMatrix rows models m1 m2).getD 0
              + (winMatrix rows models m2 m1).getD 0))
      else none
    else none

/-- A record is a decisive win of `m1` over `m2` counted by the matrix:
both models in the roster, winner `"a"` with `(model_a, model_b) = (m1, m2)`
or winner `"b"` with `(model_b, model_a) = (m1, m2)`. -/
def decisiveFor (models : List String) (m1 m2 : String) (r : PairwiseRow) : Prop :=
  r.model_a ∈ models ∧ r.model_b ∈ models ∧
    ((r.winner = "a" ∧ m1 = r.model_a ∧ m2 = r.model_b)
      ∨ (r.winner = "b" ∧ m1 = r.model_b ∧ m2 = r.model_a))

instance (models : List String) (m1 m2 : String) (r : PairwiseRow) :
    Decidable (decisiveFor models m1 m2 r) := by
  unfold decisiveFor
  infer_instance

/-- Number of records in which `m1` decisively beats `m2`. -/
def winsCount (rows : List PairwiseRow) (models : List String) (m1 m2 : String) : ℕ :=
  rows.countP (fun r => decide (decisiveFor models m1 m2 r))

lemma bumpWin_getD (m : Mat) (w l m1 m2 : String) (h : m1 ≠ m2) :
    ((bumpWin m w l) m1 m2).getD 0
      = (m m1 m2).getD 0 + (if m1 = w ∧ m2 = l then 1 else 0) := by
  have hs : (m1 = m2) = False := by simp [h]
  have hs2 : (m2 = m1) = False := by simp [h.symm]
  by_cases hc1 : m1 = w ∧ m2 = l
  · obtain ⟨e1, e2⟩ := hc1
    subst e1
    subst e2
    rw [if_pos ⟨rfl, rfl⟩]
    simp only [bumpWin, matSet]
    split
    · rename_i hbad
      exact absurd hbad.2 h
    · split
      · simp [matSet, hs, hs2]
      · simp [matSet, hs, hs2]
  · by_cases hc2 : m1 = l ∧ m2 = w
    · obtain ⟨e1, e2⟩ := hc2
      subst e1
      subst e2
      rw [if_neg hc1]
      simp only [bumpWin, matSet]
      split
      · rename_i hbad
        exact absurd hbad.1 h
      · split
        · rename_i hnone
          simp [matSet, hs, hs2, Option.isNone_iff_eq_none.1 hnone]
        · simp [matSet, hs, hs2]
    · rw [if_neg hc1]
      simp only [bumpWin, matSet]
      split
      · simp [matSet, hc1]
      · split
        · simp [matSet, hc1, hc2]
        · simp [matSet, hc1]

lemma winStep_getD (models : List String) (m : Mat) (r : PairwiseRow)
    (m1 m2 : String) (h : m1 ≠ m2) :
    ((winStep models m r) m1 m2).getD 0
      = (m m1 m2).getD 0 + (if decisiveFor models m1 m2 r then 1 else 0) := by
  unfold winStep
  by_cases hmem : r.model_a ∉ models ∨ r.model_b ∉ models
  · rw [if_pos hmem, if_neg (fun hd : decisiveFor models m1 m2 r =>
      hmem.elim (fun hh => hh hd.1) (fun hh => hh hd.2.1)), add_zero]
  · rw [if_neg hmem]
    push_neg at hmem
    by_cases hwa : r.winner = "a"
    · rw [if_pos hwa, bumpWin_getD m _ _ m1 m2 h]
      congr 1
      by_cases hc : m1 = r.model_a ∧ m2 = r.model_b
      · rw [if_pos hc, if_pos ⟨hmem.1, hmem.2, Or.inl ⟨hwa, hc.1, hc.2⟩⟩]
      · rw [if_neg hc, if_neg]
        rintro ⟨-, -, ⟨-, hx, hy⟩ | ⟨hbw, -, -⟩⟩
        · exact hc ⟨hx, hy⟩
        · rw [hwa] at hbw
          exact absurd hbw (by decide)
    · rw [if_neg hwa]
      by_cases hwb : r.winner = "b"
      · rw [if_pos hwb, bumpWin_getD m _ _ m1 m2 h]
        congr 1
        by_cases hc : m1 = r.model_b ∧ m2 = r.model_a
        · rw [if_pos hc, if_pos ⟨hmem.1, hmem.2, Or.inr ⟨hwb, hc.1, hc.2⟩⟩]
        · rw [if_neg hc, if_neg]
          rintro ⟨-, -, ⟨haw, -, -⟩ | ⟨-, hx, hy⟩⟩
          · rw [hwb] at haw
            exact absurd haw (by decide)
          · exact hc ⟨hx, hy⟩
      · rw [if_neg hwb, if_neg, add_zero]
        rintro ⟨-, -, ⟨haw, -, -⟩ | ⟨hbw, -, -⟩⟩
        · exact hwa haw
        · exact hwb hbw

lemma winFold_getD (models : List String) (m1 m2 : String) (h : m1 ≠ m2) :
    ∀ (rows : List PairwiseRow) (acc : Mat),
      ((rows.foldl (winStep models) acc) m1 m2).getD 0
        = (acc m1 m2).getD 0 + (winsCount rows models m1 m2 : ℚ) := by
  intro rows
  induction rows with
  | nil =>
    intro acc
    simp [winsCount]
  | cons r rows ih =>
    intro acc
    rw [List.foldl_cons, ih (winStep models acc r),
      winStep_getD models acc r m1 m2 h]
    simp only [winsCount, List.countP_cons, decide_eq_true_eq]
    push_cast
    split_ifs <;> ring

lemma winMatrix_getD (rows : List PairwiseRow) (models : List String)
    (m1 m2 : String) (h : m1 ≠ m2) :
    ((winMatrix rows models) m1 m2).getD 0 = (winsCount rows models m1 m2 : ℚ) := by
  rw [winMatrix, winFold_getD models m1 m2 h rows]
  simp

/-- C3: for distinct roster models the rate cell is the decisive-win ratio
`wins(m1 beats m2) / (wins(m1 beats m2) + wins(m2 beats m1))` whenever the
pair has a decisive record in either direction, stays missing when it has
none, and the diagonal is always missing. -/
theorem c3_rate_matrix (rows : List PairwiseRow) (models : List String)
    (m1 m2 : String) (h1 : m1 ∈ models) (h2 : m2 ∈ models) (h : m1 ≠ m2) :
    (0 < winsCount rows models m1 m2 + winsCount rows models m2 m1 →
      rateMatrix rows models m1 m2
        = some ((winsCount rows models m1 m2 : ℚ)
            / ((winsCount rows models m1 m2 : ℚ)
                + (winsCount rows models m2 m1 : ℚ))))
    ∧ (winsCount rows models m1 m2 + winsCount rows models m2 m1 = 0 →
      rateMatrix rows models m1 m2 = none)
    ∧ (∀ m, rateMatrix rows models m m = none) := by
  have hw := winMatrix_getD rows models m1 m2 h
  have hl := winMatrix_getD rows models m2 m1 h.symm
  refine ⟨?_, ?_, ?_⟩
  · intro hpos
    rw [rateMatrix, if_pos ⟨h1, h2, h⟩, hw, hl, if_pos (by exact_mod_cast hpos)]
  · intro hzero
    rw [rateMatrix, if_pos ⟨h1, h2, h⟩, hw, hl, if_neg]
    intro hpos
    rw [show ((winsCount rows models m1 m2 : ℚ) + (winsCount rows models m2 m1 : ℚ))
        = ((winsCount rows models m1 m2 + winsCount rows models m2 m1 : ℕ) : ℚ)
      by push_cast; ring, hzero] at hpos
    simp at hpos
  · intro m
    rw [rateMatrix, if_neg]
    rintro ⟨-, -, hne⟩
    exact hne rfl

/-- Example records: `x` beats `y` three times, `y` beats `x` once. -/
def exRowsC3 : List PairwiseRow :=
  [PairwiseRow.mk "p1" "x" "y" "a1" "a",
   PairwiseRow.mk "p2" "x" "y" "a1" "a",
   PairwiseRow.mk "p3" "x" "y" "a1" "a",
   PairwiseRow.mk "p4" "x" "y" "a1" "b"]

/-- C3 witness: with `x` beating `y` three times and `y` beating `x` once,
the `(x, y)` cell is 3/4. -/
theorem c3_rate_matrix_witness :
    rateMatrix exRowsC3 ["x", "y"] "x" "y" = some (3 / 4) := by
  rw [(c3_rate_matrix exRowsC3 ["x", "y"] "x" "y"
      (by decide) (by decide) (by decide)).1 (by decide)]
  rw [show winsCount exRowsC3 ["x", "y"] "x" "y" = 3 from rfl,
    show winsCount exRowsC3 ["x", "y"] "y" "x" = 1 from rfl]
  norm_num

/-- C4: whenever the two opposite rate cells are both defined they sum to
exactly 1. -/
theorem c4_rate_complement (rows : List PairwiseRow) (models : List String)
    (m1 m2 : String) (r1 r2 : ℚ)
    (ha : rateMatrix rows models m1 m2 = some r1)
    (hb : rateMatrix rows models m2 m1 = some r2) : r1 + r2 = 1 := by
  rw [rateMatrix] at ha hb
  split_ifs at ha hb with hc1 hp1 hp2
  · have hne : m1 ≠ m2 := hc1.2.2
    rw [winMatrix_getD rows models m1 m2 hne,
      winMatrix_getD rows models m2 m1 hne.symm] at ha hp1
    rw [winMatrix_getD rows models m2 m1 hne.symm,
      winMatrix_getD rows models m1 m2 hne] at hb
    have e1 := Option.some.inj ha
    have e2 := Option.some.inj hb
    rw [← e1, ← e2, add_comm (winsCount rows models m2 m1 : ℚ)
      (winsCount rows models m1 m2 : ℚ), div_add_div_same, div_self (ne_of_gt hp1)]

/-- Example records for the complement scenario: `x` beats `y` three times,
`y` beats `x` once. -/
def exRowsC4 : List PairwiseRow :=
  [PairwiseRow.mk "q1" "x" "y" "a1" "a",
   PairwiseRow.mk "q2" "x" "y" "a1" "a",
   PairwiseRow.mk "q3" "x" "y" "a1" "a",
   PairwiseRow.mk "q4" "x" "y" "a1" "b"]

/-- C4 witness: the 3-1 scenario of the spec, `rate(x,y) = 0.75`,
`rate(y,x) = 0.25`, and the two cells sum to 1 by the theorem. -/
theorem c4_rate_complement_witness :
    rateMatrix exRowsC4 ["x", "y"] "x" "y" = some (3 / 4)
    ∧ rateMatrix exRowsC4 ["x", "y"] "y" "x" = some (1 / 4)
    ∧ (3 / 4 : ℚ) + 1 / 4 = 1 := by
  have hxy : rateMatrix exRowsC4 ["x", "y"] "x" "y" = some (3 / 4) := by
    simp only [rateMatrix]
    rw [if_pos ⟨by decide, by decide, by decide⟩,
      winMatrix_getD exRowsC4 ["x", "y"] "x" "y" (by decide),
      winMatrix_getD exRowsC4 ["x", "y"] "y" "x" (by decide),
      show winsCount exRowsC4 ["x", "y"] "x" "y" = 3 from rfl,
      show winsCount exRowsC4 ["x", "y"] "y" "x" = 1 from rfl,
      if_pos (by norm_num)]
    norm_num
  have hyx : rateMatrix exRowsC4 ["x", "y"] "y" "x" = some (1 / 4) := by
    simp only [rateMatrix]
    rw [if_pos ⟨by decide, by decide, by decide⟩,
      winMatrix_getD exRowsC4 ["x", "y"] "y" "x" (by decide),
      winMatrix_getD exRowsC4 ["x", "y"] "x" "y" (by decide),
      show winsCount exRowsC4 ["x", "y"] "y" "x" = 1 from rfl,
      show winsCount exRowsC4 ["x", "y"] "x" "y" = 3 from rfl,
      if_pos (by norm_num)]
    norm_num
  exact ⟨hxy, hyx,
    c4_rate_complement exRowsC4 ["x", "y"] "x" "y" (3 / 4) (1 / 4) hxy hyx⟩

/-- Increment one key of a counting dict. -/
def bump (f : String → ℕ) (k : String) : String → ℕ :=
  fun x => if k = x then f x + 1 else f x

/-- One record of the `_compute_overall_win_pct` loop: `model_a` and
`model_b` each get an appearance when in the roster, and the declared winner
gets a win when in the roster (`if`/`elif`, any other label counts for
nobody). -/
def tallyStep (models : List String) (wt : (String → ℕ) × (String → ℕ))
    (r : PairwiseRow) : (String → ℕ) × (String → ℕ) :=
  let t1 := if r.model_a ∈ models then bump wt.2 r.model_a else wt.2
  let t2 := if r.model_b ∈ models then bump t1 r.model_b else t1
  let w2 :=
    if r.winner = "a" ∧ r.model_a ∈ models then bump wt.1 r.model_a
    else if r.winner = "b" ∧ r.model_b ∈ models then bump wt.1 r.model_b
    else wt.1
  (w2, t2)

/-- The `(wins, total)` dicts of `_compute_overall_win_pct` after its loop
(both initialized to 0 on every roster key). -/
def overallTallies (rows : List PairwiseRow) (models : List String) :
    (String → ℕ) × (String → ℕ) :=
  rows.foldl (tallyStep models) (fun _ => 0, fun _ => 0)

/-- `_compute_overall_win_pct`: `wins[m] / total[m] * 100` when the model
appeared, `0.0` otherwise. -/
def overallWinPct (rows : List PairwiseRow) (models : List String)
    (m : String) : ℚ :=
  if 0 < (overallTallies rows models).2 m then
    ((overallTallies rows models).1 m : ℚ)
      / ((overallTallies rows models).2 m : ℚ) * 100
  else 0

/-- Number of records the model wins (winner `"a"` as `model_a` or winner
`"b"` as `model_b`). -/
def winsOf (rows : List PairwiseRow) (m : String) : ℕ :=
  rows.countP (fun r =>
    decide ((r.winner = "a" ∧ r.model_a = m) ∨ (r.winner = "b" ∧ r.model_b = m)))

/-- Number of records in which the model appears on either side. -/
def appearances (rows : List PairwiseRow) (m : String) : ℕ :=
  rows.countP (fun r => decide (r.model_a = m ∨ r.model_b = m))

lemma tallyStep_total (models : List String) (m : String) (hm : m ∈ models)
    (wt : (String → ℕ) × (String → ℕ)) (r : PairwiseRow) :
    (tallyStep models wt r).2 m
      = wt.2 m + (if r.model_a = m then 1 else 0)
          + (if r.model_b = m then 1 else 0) := by
  by_cases ha : r.model_a = m
  · have ham : r.model_a ∈ models := ha ▸ hm
    by_cases hb : r.model_b = m
    · have hbm : r.model_b ∈ models := hb ▸ hm
      simp [tallyStep, bump, ha, hb, ham, hbm, hm]
    · by_cases hbm : r.model_b ∈ models <;>
        simp [tallyStep, bump, ha, hb, ham, hbm, hm]
  · by_cases hb : r.model_b = m
    · have hbm : r.model_b ∈ models := hb ▸ hm
      by_cases ham : r.model_a ∈ models <;>
        simp [tallyStep, bump, ha, hb, ham, hbm, hm]
    · by_cases ham : r.model_a ∈ models <;> by_cases hbm : r.model_b ∈ models <;>
        simp [tallyStep, bump, ha, hb, ham, hbm, hm]

lemma tallyStep_wins (models : List String) (m : String) (hm : m ∈ models)
    (wt : (String → ℕ) × (String → ℕ)) (r : PairwiseRow) :
    (tallyStep models wt r).1 m
      = wt.1 m + (if (r.winner = "a" ∧ r.model_a = m)
          ∨ (r.winner = "b" ∧ r.model_b = m) then 1 else 0) := by
  by_cases hwa : r.winner = "a"
  · have hwb : ¬ r.winner = "b" := by
      rw [hwa]
      decide
    by_cases ha : r.model_a = m
    · have ham : r.model_a ∈ models := ha ▸ hm
      simp [tallyStep, bump, hwa, hwb, ha, ham, hm]
    · by_cases ham : r.model_a ∈ models <;>
        simp [tallyStep, bump, hwa, hwb, ha, ham, hm]
  · by_cases hwb : r.winner = "b"
    · by_cases hb : r.model_b = m
      · have hbm : r.model_b ∈ models := hb ▸ hm
        simp [tallyStep, bump, hwa, hwb, hb, hbm, hm]
      · by_cases hbm : r.model_b ∈ models <;>
          simp [tallyStep, bump, hwa, hwb, hb, hbm, hm]
    · simp [tallyStep, bump, hwa, hwb]

lemma tallyFold_total (models : List String) (m : String) (hm : m ∈ models) :
    ∀ (rows : List PairwiseRow) (acc : (String → ℕ) × (String → ℕ)),
      (rows.foldl (tallyStep models) acc).2 m
        = acc.2 m + rows.countP (fun r => decide (r.model_a = m))
            + rows.countP (fun r => decide (r.model_b = m)) := by
  intro rows
  induction rows with
  | nil =>
    intro acc
    simp
  | cons r rows ih =>
    intro acc
    rw [List.foldl_cons, ih (tallyStep models acc r), tallyStep_total models m hm acc r]
    simp only [List.countP_cons, decide_eq_true_eq]
    split_ifs <;> omega

lemma tallyFold_wins (models : List String) (m : String) (hm : m ∈ models) :
    ∀ (rows : List PairwiseRow) (acc : (String → ℕ) × (String → ℕ)),
      (rows.foldl (tallyStep models) acc).1 m = acc.1 m + winsOf rows m := by
  intro rows
  induction rows with
  | nil =>
    intro acc
    simp [winsOf]
  | cons r rows ih =>
    intro acc
    rw [List.foldl_cons, ih (tallyStep models acc r), tallyStep_wins models m hm acc r]
    simp only [winsOf, List.countP_cons, decide_eq_true_eq]
    split_ifs <;> omega

lemma appearances_split (rows : List PairwiseRow) (m : String)
    (hab : ∀ r ∈ rows, r.model_a ≠ r.model_b) :
    appearances rows m = rows.countP (fun r => decide (r.model_a = m))
      + rows.countP (fun r => decide (r.model_b = m)) := by
  induction rows with
  | nil => simp [appearances]
  | cons r rows ih =>
    have hr := hab r (List.mem_cons_self r rows)
    have ihh := ih (fun x hx => hab x (List.mem_cons_of_mem r hx))
    simp only [appearances, List.countP_cons, decide_eq_true_eq] at ihh ⊢
    by_cases ha : r.model_a = m
    · have hb : ¬ r.model_b = m := fun hh => hr (ha.trans hh.symm)
      rw [if_pos (Or.inl ha), if_pos ha, if_neg hb, ihh]
      omega
    · by_cases hb : r.model_b = m
      · rw [if_pos (Or.inr hb), if_neg ha, if_pos hb, ihh]
        omega
      · rw [if_neg (fun hh => hh.elim ha hb), if_neg ha, if_neg hb, ihh]
        omega

lemma overallTallies_total (rows : List PairwiseRow) (models : List String)
    (m : String) (hm : m ∈ models)
    (hab : ∀ r ∈ rows, r.model_a ≠ r.model_b) :
    (overallTallies rows models).2 m = appearances rows m := by
  rw [overallTallies, tallyFold_total models m hm rows, appearances_split rows m hab]
  simp

lemma overallTallies_wins (rows : List PairwiseRow) (models : List String)
    (m : String) (hm : m ∈ models) :
    (overallTallies rows models).1 m = winsOf rows m := by
  rw [overallTallies, tallyFold_wins models m hm rows]
  simp

lemma winsOf_le_appearances (rows : List PairwiseRow) (m : String) :
    winsOf rows m ≤ appearances rows m := by
  induction rows with
  | nil => simp [winsOf, appearances]
  | cons r rows ih =>
    simp only [winsOf, appearances, List.countP_cons, decide_eq_true_eq] at ih ⊢
    split_ifs with h1 h2 h2 <;> try omega
    rcases h1 with ⟨-, hx⟩ | ⟨-, hx⟩
    · exact absurd (Or.inl hx) h2
    · exact absurd (Or.inr hx) h2

/-- C5: for a roster model, over records obeying the data-model invariant
`model_a ≠ model_b`, the overall win percentage equals
`100 * wins / appearances` (ties and malformed labels count as appearances
only), lies in `[0, 100]`, and is 0 for a model that never appears. -/
theorem c5_overall_pct (rows : List PairwiseRow) (models : List String)
    (m : String) (hm : m ∈ models)
    (hab : ∀ r ∈ rows, r.model_a ≠ r.model_b) :
    overallWinPct rows models m
      = 100 * (winsOf rows m : ℚ) / (appearances rows m : ℚ)
    ∧ 0 ≤ overallWinPct rows models m
    ∧ overallWinPct rows models m ≤ 100
    ∧ (appearances rows m = 0 → overallWinPct rows models m = 0) := by
  have ht := overallTallies_total rows models m hm hab
  have hw := overallTallies_wins rows models m hm
  have hle := winsOf_le_appearances rows m
  by_cases hz : appearances rows m = 0
  · have hwz : winsOf rows m = 0 := by omega
    have h0 : overallWinPct rows models m = 0 := by
      rw [overallWinPct, if_neg]
      rw [ht, hz]
      omega
    refine ⟨?_, ?_, ?_, fun _ => h0⟩
    · rw [h0, hz, hwz]
      norm_num
    · rw [h0]
    · rw [h0]
      norm_num
  · have hpos : 0 < appearances rows m := Nat.pos_of_ne_zero hz
    have hqpos : (0 : ℚ) < (appearances rows m : ℚ) := by exact_mod_cast hpos
    have heq : overallWinPct rows models m
        = 100 * (winsOf rows m : ℚ) / (appearances rows m : ℚ) := by
      rw [overallWinPct, if_pos (by rw [ht]; exact hpos), ht, hw]
      ring
    refine ⟨heq, ?_, ?_, fun hc => absurd hc hz⟩
    · rw [heq]
      positivity
    · rw [heq, div_le_iff₀ hqpos]
      have : (winsOf rows m : ℚ) ≤ (appearances rows m : ℚ) := by exact_mod_cast hle
      nlinarith
/-- C5 witness: one decisive record and one tie give model `x` a win
percentage of `100 * 1 / 2 = 50`. -/
theorem c5_overall_pct_witness :
    overallWinPct [PairwiseRow.mk "p1" "x" "y" "a1" "a",
      PairwiseRow.mk "p2" "x" "y" "a2" "tie"] ["x", "y"] "x"
      = 100 * (winsOf [PairwiseRow.mk "p1" "x" "y" "a1" "a",
          PairwiseRow.mk "p2" "x" "y" "a2" "tie"] "x" : ℚ)
        / (appearances [PairwiseRow.mk "p1" "x" "y" "a1" "a",
            PairwiseRow.mk "p2" "x" "y" "a2" "tie"] "x" : ℚ) :=
  (c5_overall_pct [PairwiseRow.mk "p1" "x" "y" "a1" "a",
      PairwiseRow.mk "p2" "x" "y" "a2" "tie"] ["x", "y"] "x"
      (by decide) (by decide)).1

lemma nunique_le_of_subset (l l2 : List String) (h : ∀ x ∈ l, x ∈ l2) :
    nunique l ≤ nunique l2 := by
  rw [nunique, nunique, ← List.card_toFinset, ← List.card_toFinset]
  apply Finset.card_le_card
  intro x hx
  rw [List.mem_toFinset] at hx ⊢
  exact h x hx

lemma cells_ann_subset (rows : List PairwiseRow) :
    ∀ x ∈ (pairwiseCells rows).map (fun c => c.annotator_id),
      x ∈ rows.map (fun r => r.annotator_id) := by
  intro x hx
  obtain ⟨c, hc, rfl⟩ := List.mem_map.1 hx
  obtain ⟨rr, hrr, hfc⟩ := List.mem_filterMap.1 hc
  obtain ⟨code, -, hmk⟩ := Option.map_eq_some.1 hfc
  exact List.mem_map.2 ⟨rr, hrr, by rw [← hmk]⟩

/-- C6 (amended): a record whose winner label is outside `{a, b, tie}` is
invisible to the directed win matrix, the rate matrix and the pairwise alpha:
removing it changes none of them. (The overall win percentage, by contrast,
counts such a record as an appearance; see the counterexample.) -/
theorem c6_malformed_excluded (l1 l2 : List PairwiseRow) (r : PairwiseRow)
    (models : List String)
    (hw : r.winner ∉ (["a", "b", "tie"] : List String)) :
    winMatrix (l1 ++ r :: l2) models = winMatrix (l1 ++ l2) models
    ∧ rateMatrix (l1 ++ r :: l2) models = rateMatrix (l1 ++ l2) models
    ∧ krippPairwise (l1 ++ r :: l2) = krippPairwise (l1 ++ l2) := by
  have hw3 : r.winner ≠ "a" ∧ r.winner ≠ "b" ∧ r.winner ≠ "tie" := by
    simpa using hw
  have hstep : ∀ acc : Mat, winStep models acc r = acc := by
    intro acc
    by_cases hmem : r.model_a ∉ models ∨ r.model_b ∉ models <;>
      simp [winStep, hmem, hw3.1, hw3.2.1]
  have hwm : winMatrix (l1 ++ r :: l2) models = winMatrix (l1 ++ l2) models := by
    rw [winMatrix, winMatrix, List.foldl_append, List.foldl_append,
      List.foldl_cons, hstep]
  have hcode : winnerCode r.winner = none := by
    simp [winnerCode, hw3.1, hw3.2.1, hw3.2.2]
  have hcells : pairwiseCells (l1 ++ r :: l2) = pairwiseCells (l1 ++ l2) := by
    simp only [pairwiseCells, List.filterMap_append]
    congr 1
    rw [List.filterMap_cons_none]
    rw [hcode]
    rfl
  refine ⟨hwm, ?_, ?_⟩
  · funext m1 m2
    simp only [rateMatrix, hwm]
  · have hnule : nunique ((l1 ++ l2).map (fun x => x.annotator_id))
        ≤ nunique ((l1 ++ r :: l2).map (fun x => x.annotator_id)) := by
      apply nunique_le_of_subset
      intro x hx
      obtain ⟨rr, hrr, rfl⟩ := List.mem_map.1 hx
      refine List.mem_map.2 ⟨rr, ?_, rfl⟩
      rcases List.mem_append.1 hrr with h | h
      · exact List.mem_append.2 (Or.inl h)
      · exact List.mem_append.2 (Or.inr (List.mem_cons_of_mem r h))
    by_cases hR2 : l1 ++ l2 = []
    · have h1 : l1 = [] := (List.append_eq_nil.1 hR2).1
      have h2 : l2 = [] := (List.append_eq_nil.1 hR2).2
      subst h1
      subst h2
      simp [krippPairwise, nunique]
    · have hR : l1 ++ r :: l2 ≠ [] := by
        simp [List.append_eq_nil]
      rw [krippPairwise, krippPairwise, if_neg hR, if_neg hR2, hcells]
      by_cases hn2 : nunique ((l1 ++ l2).map (fun x => x.annotator_id)) < 2
      · rw [if_pos hn2]
        by_cases hn1 : nunique ((l1 ++ r :: l2).map (fun x => x.annotator_id)) < 2
        · rw [if_pos hn1]
        · rw [if_neg hn1]
          by_cases hce : pairwiseCells (l1 ++ l2) = []
          · rw [if_pos hce]
          · rw [if_neg hce, if_pos]
            rw [pivotMatrix_length]
            calc nunique ((pairwiseCells (l1 ++ l2)).map (fun c => c.annotator_id))
                ≤ nunique ((l1 ++ l2).map (fun x => x.annotator_id)) :=
                  nunique_le_of_subset _ _ (cells_ann_subset (l1 ++ l2))
              _ < 2 := hn2
      · have hn1 : ¬ nunique ((l1 ++ r :: l2).map (fun x => x.annotator_id)) < 2 :=
          fun hlt => hn2 (lt_of_le_of_lt hnule hlt)
        rw [if_neg hn1, if_neg hn2]

/-- C6 witness: removing a record with winner label `"abstain"` leaves the
directed win matrix, the rate matrix and the pairwise alpha unchanged. -/
theorem c6_malformed_excluded_witness :
    winMatrix [PairwiseRow.mk "p1" "x" "y" "a1" "a",
        PairwiseRow.mk "p2" "x" "y" "a2" "abstain"] ["x", "y"]
      = winMatrix [PairwiseRow.mk "p1" "x" "y" "a1" "a"] ["x", "y"]
    ∧ rateMatrix [PairwiseRow.mk "p1" "x" "y" "a1" "a",
        PairwiseRow.mk "p2" "x" "y" "a2" "abstain"] ["x", "y"]
      = rateMatrix [PairwiseRow.mk "p1" "x" "y" "a1" "a"] ["x", "y"]
    ∧ krippPairwise [PairwiseRow.mk "p1" "x" "y" "a1" "a",
        PairwiseRow.mk "p2" "x" "y" "a2" "abstain"]
      = krippPairwise [PairwiseRow.mk "p1" "x" "y" "a1" "a"] := by
  simpa using c6_malformed_excluded [PairwiseRow.mk "p1" "x" "y" "a1" "a"] []
    (PairwiseRow.mk "p2" "x" "y" "a2" "abstain") ["x", "y"] (by decide)

/-- C6 counterexample: a record with the malformed winner label `"abstain"`
is NOT excluded from the overall win percentage: it counts toward both
models' appearance totals, so removing it moves the percentage of `x` from
50 to 100. -/
theorem c6_counterexample :
    ("abstain" ∉ (["a", "b", "tie"] : List String))
    ∧ overallWinPct [PairwiseRow.mk "p1" "x" "y" "a1" "a",
        PairwiseRow.mk "p2" "x" "y" "a2" "abstain"] ["x", "y"] "x" = 50
    ∧ overallWinPct [PairwiseRow.mk "p1" "x" "y" "a1" "a"] ["x", "y"] "x" = 100 := by
  refine ⟨by decide, ?_, ?_⟩
  · simp only [overallWinPct]
    rw [if_pos (by decide),
      show (overallTallies [PairwiseRow.mk "p1" "x" "y" "a1" "a",
        PairwiseRow.mk "p2" "x" "y" "a2" "abstain"] ["x", "y"]).1 "x" = 1 from rfl,
      show (overallTallies [PairwiseRow.mk "p1" "x" "y" "a1" "a",
        PairwiseRow.mk "p2" "x" "y" "a2" "abstain"] ["x", "y"]).2 "x" = 2 from rfl]
    norm_num
  · simp only [overallWinPct]
    rw [if_pos (by decide),
      show (overallTallies [PairwiseRow.mk "p1" "x" "y" "a1" "a"]
        ["x", "y"]).1 "x" = 1 from rfl,
      show (overallTallies [PairwiseRow.mk "p1" "x" "y" "a1" "a"]
        ["x", "y"]).2 "x" = 1 from rfl]
    norm_num

/-- Modelled from the spec: the deterministic draw stream of numpy's seeded
generator `np.random.default_rng(seed)`. Its exact values never matter to the
verified properties; what matters is that the stream is a pure function of
the seed alone, which is how the source constructs it (seed fixed at 42). -/
def defaultRng (seed : ℕ) : ℕ → ℕ :=
  fun i => (seed + 1) * 2654435761 * (i + 1) % 4294967296

/-- `np.mean`: sum divided by length. -/
def npMean (values : List ℚ) : ℚ :=
  values.sum / (values.length : ℚ)

/-- One bootstrap resample of the same size as the input, drawn with
replacement using the draw stream (`rng.choice(values, size=len(values),
replace=True)` of resample number `i`). -/
def resample (rng : ℕ → ℕ) (values : List ℚ) (i : ℕ) : List ℚ :=
  (List.range values.length).map
    (fun j => values.getD (rng (i * values.length + j) % values.length) 0)

/-- Insert into an ascending list. -/
def insertSorted (x : ℚ) : List ℚ → List ℚ
  | [] => [x]
  | y :: ys => if x ≤ y then x :: y :: ys else y :: insertSorted x ys

/-- Ascending sort. -/
def sortAsc (l : List ℚ) : List ℚ :=
  l.foldr insertSorted []

/-- Modelled from the spec: `np.percentile` with its default linear
interpolation between order statistics, at position `(n-1) * q / 100`. -/
def npPercentile (xs : List ℚ) (q : ℚ) : ℚ :=
  let s := sortAsc xs
  if s.length = 0 then 0
  else
    let h : ℚ := ((s.length : ℚ) - 1) * q / 100
    let lo : ℕ := (Int.floor h).toNat
    let a := s.getD lo 0
    let b := s.getD (lo + 1) a
    a + (h - (lo : ℚ)) * (b - a)

/-- `_bootstrap_ci`: the percentile-bootstrap CI of the mean. Fewer than two
observations short-circuit to `(point, point)` with no resampling; otherwise
`n_boot` resample means feed the two percentiles. The `ambient` argument
makes the Python process's ambient random state explicit: the source never
reads it, because it builds its own generator from the fixed seed 42. -/
def bootstrapCI (_ambient : ℕ) (values : List ℚ) (nBoot : ℕ) (ci : ℚ) : ℚ × ℚ :=
  if values.length < 2 then
    let m := if values.length ≠ 0 then npMean values else 0
    (m, m)
  else
    let rng := defaultRng 42
    let means := (List.range nBoot).map (fun i => npMean (resample rng values i))
    let a := (1 - ci) / 2
    (npPercentile means (100 * a), npPercentile means (100 * (1 - a)))

/-- `_bootstrap_ci_proportion`: the percentile-bootstrap CI of a proportion,
resampling the 1/0 outcome vector `[1] * wins + [0] * (total - wins)`.
`total < 2` short-circuits to `(p, p)` with `p = wins / total` when
`total` is nonzero and `0.0` otherwise. -/
def bootstrapCIProportion (_ambient : ℕ) (wins total : ℕ) (nBoot : ℕ) (ci : ℚ) : ℚ × ℚ :=
  if total < 2 then
    let p := if total ≠ 0 then (wins : ℚ) / (total : ℚ) else 0
    (p, p)
  else
    let rng := defaultRng 42
    let outcomes : List ℚ := List.replicate wins 1 ++ List.replicate (total - wins) 0
    let props := (List.range nBoot).map (fun i => npMean (resample rng outcomes i))
    let a := (1 - ci) / 2
    (npPercentile props (100 * a), npPercentile props (100 * (1 - a)))

/-- C7: with fewer than two observations both CI functions return the point
estimate as both bounds without resampling: a one-element list gives that
element twice, and `total = 1` gives `wins / total` twice. -/
theorem c7_degenerate :
    (∀ (amb : ℕ) (values : List ℚ) (nBoot : ℕ) (ci : ℚ), values.length < 2 →
      bootstrapCI amb values nBoot ci
        = (if values.length ≠ 0 then npMean values else 0,
           if values.length ≠ 0 then npMean values else 0))
    ∧ (∀ (amb : ℕ) (v : ℚ) (nBoot : ℕ) (ci : ℚ),
        bootstrapCI amb [v] nBoot ci = (v, v))
    ∧ (∀ (amb wins total nBoot : ℕ) (ci : ℚ), total < 2 →
        bootstrapCIProportion amb wins total nBoot ci
          = (if total ≠ 0 then (wins : ℚ) / (total : ℚ) else 0,
             if total ≠ 0 then (wins : ℚ) / (total : ℚ) else 0))
    ∧ (∀ (amb wins nBoot : ℕ) (ci : ℚ),
        bootstrapCIProportion amb wins 1 nBoot ci = ((wins : ℚ) / 1, (wins : ℚ) / 1)) := by
  refine ⟨?_, ?_, ?_, ?_⟩
  · intro amb values nBoot ci hlen
    rw [bootstrapCI, if_pos hlen]
  · intro amb v nBoot ci
    rw [bootstrapCI, if_pos (by simp)]
    simp [npMean]
  · intro amb wins total nBoot ci htot
    rw [bootstrapCIProportion, if_pos htot]
  · intro amb wins nBoot ci
    rw [bootstrapCIProportion, if_pos (by omega)]
    simp

/-- C7 witness: `ci_mean([5])` returns `(5, 5)` and
`ci_proportion(1, 1)` returns `(1, 1)`. -/
theorem c7_degenerate_witness :
    bootstrapCI 0 [(5 : ℚ)] 2000 (95 / 100) = (5, 5)
    ∧ bootstrapCIProportion 0 1 1 2000 (95 / 100) = (1, 1) := by
  constructor
  · have h := c7_degenerate.1 0 [(5 : ℚ)] 2000 (95 / 100) (by decide)
    simpa [npMean] using h
  · have h := c7_degenerate.2.2.1 0 1 1 2000 (95 / 100) (by decide)
    simpa using h

/-- C8: both CI functions are deterministic across calls: their result does
not depend on the ambient random state of the process, because the
resampling generator is rebuilt from the fixed seed 42 on every call, so two
calls on identical inputs return identical bounds. -/
theorem c8_deterministic :
    (∀ (amb1 amb2 : ℕ) (values : List ℚ) (nBoot : ℕ) (ci : ℚ),
      bootstrapCI amb1 values nBoot ci = bootstrapCI amb2 values nBoot ci)
    ∧ (∀ (amb1 amb2 wins total nBoot : ℕ) (ci : ℚ),
      bootstrapCIProportion amb1 wins total nBoot ci
        = bootstrapCIProportion amb2 wins total nBoot ci) :=
  ⟨fun _ _ _ _ _ => rfl, fun _ _ _ _ _ _ => rfl⟩

/-- C10: `ci_proportion` with `total = 0` returns exactly `(0.0, 0.0)` for
every wins count: the point estimate of a model with zero appearances is
defined to be 0, not an undefined marker. -/
theorem c10_zero_total :
    ∀ (amb wins nBoot : ℕ) (ci : ℚ),
      bootstrapCIProportion amb wins 0 nBoot ci = (0, 0) := by
  intro amb wins nBoot ci
  rw [bootstrapCIProportion, if_pos (by omega)]
  simp

/-- Raw rubric annotation object as loaded from JSON: every field may be
absent. -/
structure RawRubricItem where
  prompt_id : Option String
  model : Option String
  annotator_id : Option String
  timestamp : Option String
  scores : Option (List (String × ℤ))
deriving DecidableEq

/-- Raw pairwise annotation object as loaded from JSON: every field may be
absent. -/
structure RawPairwiseItem where
  prompt_id : Option String
  model_a : Option String
  model_b : Option String
  annotator_id : Option String
  winner : Option String
deriving DecidableEq

/-- Python's raw `item["key"]` access: a missing key raises `KeyError`,
modelled as the error branch. -/
def keyAccess (v : Option α) (key : String) : Except String α :=
  match v with
  | some x => Except.ok x
  | none => Except.error ("KeyError: " ++ key)

/-- The rubric flattening loop of `generate_report` (lines 403-412): raw
`item["prompt_id"]`, `item["model"]`, `item["annotator_id"]` accesses (these
raise on absence), then `item.get("scores", {}).get(dim)` per fixed
dimension, which never raises. -/
def flattenRubricItem (item : RawRubricItem) : Except String RubricRow := do
  let pid ← keyAccess item.prompt_id "prompt_id"
  let m ← keyAccess item.model "model"
  let ann ← keyAccess item.annotator_id "annotator_id"
  Except.ok (RubricRow.mk pid m ann
    (RUBRIC_DIMENSIONS.filterMap (fun d =>
      ((item.scores.getD []).lookup d).map (fun s => (d, s)))))

/-- One row of `pairwise_df` that survived enrichment and roster discovery:
`prompt_id`, `model_a` and `model_b` are present strings (see
`normalizePairwiseItem`), while `annotator_id` and `winner` stay optional --
those cells hold NaN when the raw object lacked the key. -/
structure PairwiseDfRow where
  prompt_id : String
  model_a : String
  model_b : String
  annotator_id : Option String
  winner : Option String
deriving DecidableEq

/-- Pairwise normalization. An absent `prompt_id` crashes the enrichment
step (`_language_for_prompt` calls `.split` on the NaN cell); an absent
`model_a` or `model_b` crashes the roster step (`sorted(models_set)`
compares NaN with str, or `pairwise_df["model_a"]` raises when the column is
missing altogether). `annotator_id` and `winner` are carried through as
optional cells, faithful to the NaN the DataFrame holds there. -/
def normalizePairwiseItem (item : RawPairwiseItem) : Except String PairwiseDfRow := do
  let pid ← keyAccess item.prompt_id "prompt_id"
  let ma ← keyAccess item.model_a "model_a"
  let mb ← keyAccess item.model_b "model_b"
  Except.ok (PairwiseDfRow.mk pid ma mb item.annotator_id item.winner)

/-- A pandas DataFrame built from dicts only has a column when some dict
carries the key. With a nonempty pairwise frame, `row["winner"]` in
`_compute_overall_win_pct` (line 288, reached from line 490) raises
`KeyError` when the `winner` column is absent, and
`pairwise_df["annotator_id"].nunique()` (line 196, reached from line 601,
outside the `try`) raises when the `annotator_id` column is absent; the
winner access runs first. A column that exists but has NaN in some rows
raises nothing. -/
def pairwiseColumns (items : List RawPairwiseItem) : Except String Unit :=
  if items = [] then Except.ok ()
  else if items.all (fun i => i.winner.isNone) then Except.error "KeyError: winner"
  else if items.all (fun i => i.annotator_id.isNone) then
    Except.error "KeyError: annotator_id"
  else Except.ok ()

/-- A DataFrame row as the win-rate, overall-percentage and CI loops read
it: those loops never read `annotator_id`, and a NaN `winner` cell compares
unequal to every concrete label, which the empty string reproduces (it is
not a recognized label either). -/
def statsRow (r : PairwiseDfRow) : PairwiseRow :=
  PairwiseRow.mk r.prompt_id r.model_a r.model_b
    (r.annotator_id.getD "") (r.winner.getD "")

/-- The rows the pairwise alpha sees: pandas `nunique` and `pivot_table`
both exclude NaN annotators, so rows with a missing `annotator_id` never
contribute to the agreement statistic. -/
def alphaRows (pw : List PairwiseDfRow) : List PairwiseRow :=
  pw.filterMap (fun r => r.annotator_id.map (fun ann =>
    PairwiseRow.mk r.prompt_id r.model_a r.model_b ann (r.winner.getD "")))

/-- The aggregate statistics the report renders (the rendering itself is
out-of-scope formatting). -/
structure EngineOutput where
  models : List String
  rubricAlphas : List (String × Option ℚ)
  pairwiseAlpha : Option ℚ
  rates : Mat
  overallPct : String → ℚ
  ciTable : List (String × (ℚ × ℚ))

/-- The per-model raw win/total loop feeding `_bootstrap_ci_proportion`
(lines 521-532 of `generate_report`, `model_a` side checked first). -/
def ciCounts (rows : List PairwiseRow) (m : String) : ℕ × ℕ :=
  rows.foldl (fun wt r =>
    if r.model_a = m then
      (if r.winner = "a" then wt.1 + 1 else wt.1, wt.2 + 1)
    else if r.model_b = m then
      (if r.winner = "b" then wt.1 + 1 else wt.1, wt.2 + 1)
    else wt) (0, 0)

/-- The statistical core of `generate_report`: flatten the rubric items,
normalize the pairwise items, check that the `winner` and `annotator_id`
columns exist when the frame is nonempty, discover the model roster (the
source sorts it; only membership matters to every aggregate, so first-seen
order is kept here), then compute every statistic. The statistic functions
themselves are total, so the failure paths are the raw identity-field
accesses and the two column accesses. -/
def engineStats (amb : ℕ) (pairwiseRaw : List RawPairwiseItem)
    (rubricRaw : List RawRubricItem) : Except String EngineOutput := do
  let rub ← rubricRaw.mapM flattenRubricItem
  let pwdf ← pairwiseRaw.mapM normalizePairwiseItem
  let _ ← pairwiseColumns pairwiseRaw
  let pw := pwdf.map statsRow
  let models := ((pw.map (fun r => r.model_a)) ++ (pw.map (fun r => r.model_b))
    ++ (rub.map (fun r => r.model))).dedup
  Except.ok (EngineOutput.mk models
    (RUBRIC_DIMENSIONS.map (fun d => (d, krippRubric rub d)))
    (krippPairwise (alphaRows pwdf))
    (rateMatrix pw models)
    (overallWinPct pw models)
    (models.map (fun m =>
      (m, bootstrapCIProportion amb (ciCounts pw m).1 (ciCounts pw m).2
        2000 (95 / 100)))))

lemma mapM_ok_of_forall (f : α → Except String β) :
    ∀ l : List α, (∀ x ∈ l, ∃ y, f x = Except.ok y) →
      ∃ ys, l.mapM f = Except.ok ys := by
  intro l
  induction l with
  | nil =>
    intro _
    exact ⟨[], rfl⟩
  | cons a l ih =>
    intro h
    obtain ⟨y, hy⟩ := h a (List.mem_cons_self a l)
    obtain ⟨ys, hys⟩ := ih (fun x hx => h x (List.mem_cons_of_mem a hx))
    refine ⟨y :: ys, ?_⟩
    rw [List.mapM_cons, hy, hys]
    rfl

/-- C9 counterexample: a rubric annotation object with no fields at all
makes the report computation raise (`KeyError` on `item["prompt_id"]`): not
every malformed input record is survivable. -/
theorem c9_counterexample :
    engineStats 0 [] [RawRubricItem.mk none none none none none]
      = Except.error "KeyError: prompt_id" := rfl

/-- C9 (amended): the computation runs to completion on every input whose
rubric records carry `prompt_id`, `model` and `annotator_id`, whose pairwise
records carry `prompt_id`, `model_a` and `model_b`, and whose pairwise
record set, when nonempty, has at least one record with a `winner` field and
at least one with an `annotator_id` field (so the DataFrame columns exist).
Arbitrary or individually absent winner labels, out-of-range scores and
absent score dimensions are survivable; a record missing an identity field,
or an entirely absent winner/annotator column, raises a `KeyError`-class
error, so the claim's unconditional totality fails. -/
theorem c9_total_when_wellformed (amb : ℕ) (pairwiseRaw : List RawPairwiseItem)
    (rubricRaw : List RawRubricItem)
    (hrub : ∀ item ∈ rubricRaw,
      item.prompt_id.isSome ∧ item.model.isSome ∧ item.annotator_id.isSome)
    (hpw : ∀ item ∈ pairwiseRaw,
      item.prompt_id.isSome ∧ item.model_a.isSome ∧ item.model_b.isSome)
    (hcols : pairwiseRaw = []
      ∨ ((∃ item ∈ pairwiseRaw, item.winner.isSome)
          ∧ (∃ item ∈ pairwiseRaw, item.annotator_id.isSome))) :
    ∃ out, engineStats amb pairwiseRaw rubricRaw = Except.ok out := by
  have h1 : ∀ item ∈ rubricRaw, ∃ y, flattenRubricItem item = Except.ok y := by
    intro item hi
    obtain ⟨hp, hm, ha⟩ := hrub item hi
    obtain ⟨p, hpv⟩ := Option.isSome_iff_exists.1 hp
    obtain ⟨m, hmv⟩ := Option.isSome_iff_exists.1 hm
    obtain ⟨a, hav⟩ := Option.isSome_iff_exists.1 ha
    refine ⟨RubricRow.mk p m a (RUBRIC_DIMENSIONS.filterMap (fun d =>
      ((item.scores.getD []).lookup d).map (fun s => (d, s)))), ?_⟩
    rw [flattenRubricItem, hpv, hmv, hav]
    rfl
  have h2 : ∀ item ∈ pairwiseRaw, ∃ y, normalizePairwiseItem item = Except.ok y := by
    intro item hi
    obtain ⟨hp, hm, hb⟩ := hpw item hi
    obtain ⟨p, hpv⟩ := Option.isSome_iff_exists.1 hp
    obtain ⟨ma, hmv⟩ := Option.isSome_iff_exists.1 hm
    obtain ⟨mb, hbv⟩ := Option.isSome_iff_exists.1 hb
    refine ⟨PairwiseDfRow.mk p ma mb item.annotator_id item.winner, ?_⟩
    rw [normalizePairwiseItem, hpv, hmv, hbv]
    rfl
  have hcc : pairwiseColumns pairwiseRaw = Except.ok () := by
    rcases hcols with h | ⟨⟨iw, hiw, hw⟩, ⟨ia, hia, ha⟩⟩
    · rw [pairwiseColumns, if_pos h]
    · have hnil : pairwiseRaw ≠ [] := by
        intro hh
        rw [hh] at hiw
        exact absurd hiw (List.not_mem_nil iw)
      have hwcol : ¬ pairwiseRaw.all (fun i => i.winner.isNone) = true := by
        intro hall
        have hval := List.all_eq_true.1 hall iw hiw
        rcases hx : iw.winner with _ | v
        · rw [hx] at hw
          simp at hw
        · rw [hx] at hval
          simp at hval
      have hacol : ¬ pairwiseRaw.all (fun i => i.annotator_id.isNone) = true := by
        intro hall
        have hval := List.all_eq_true.1 hall ia hia
        rcases hx : ia.annotator_id with _ | v
        · rw [hx] at ha
          simp at ha
        · rw [hx] at hval
          simp at hval
      rw [pairwiseColumns, if_neg hnil, if_neg hwcol, if_neg hacol]
  obtain ⟨rs, hrs⟩ := mapM_ok_of_forall flattenRubricItem rubricRaw h1
  obtain ⟨ps, hps⟩ := mapM_ok_of_forall normalizePairwiseItem pairwiseRaw h2
  rw [engineStats, hrs, hps, hcc]
  exact ⟨_, rfl⟩

/-- C9 witness: one fully-populated pairwise record and one rubric record
produce a report output. -/
theorem c9_total_when_wellformed_witness :
    ∃ out, engineStats 0
      [RawPairwiseItem.mk (some "ig_001") (some "x") (some "y")
        (some "a1") (some "a")]
      [RawRubricItem.mk (some "ig_001") (some "x") (some "a1") none
        (some [("cultural_accuracy", 4)])]
      = Except.ok out :=
  c9_total_when_wellformed 0 _ _ (by simp) (by simp) (by simp)

end WikitonguesEval
